import Mathlib

/-!
# Verification of the IoT blockchain-anchoring pipeline

A shallow embedding of the data-integrity pipeline implemented in
`app/routes/iot.py`, `app/services/signature.py`,
`app/services/blockchain.py`, `app/services/ipfs.py` and
`app/models/iot_data.py`, together with proofs about it.

Payload values are modelled by `Value` (integers, strings, and nested
dictionaries); a dictionary is an insertion-ordered association list,
exactly as a Python `dict` holds its items.  The canonical encoding
`str(sorted(data.items())).encode()` is modelled character-for-character
by `canonicalEncode` (for printable characters; Python additionally
escapes control characters in `repr`, which no claim here depends on).
External libraries (`ecdsa`, `hashlib`, `base64`, `web3`, IPFS) are
modelled as abstract fallible operations supplied through environment
records: a `none`/`Except.error` outcome stands for the library raising.
-/

namespace IoTChain

/-- A Python value as it appears in a sensor payload: an integer, a
string, or a nested dictionary with string keys (held as an
insertion-ordered association list, as a Python `dict` holds items). -/
inductive Value : Type where
  | int (n : Int)
  | str (s : String)
  | dict (entries : List (String × Value))

/-- A payload mapping: the items of the top-level Python dict, in
insertion order. -/
abbrev Payload := List (String × Value)

/-- The character for one decimal digit. -/
def digitChar : Nat → Char
  | 0 => '0' | 1 => '1' | 2 => '2' | 3 => '3' | 4 => '4'
  | 5 => '5' | 6 => '6' | 7 => '7' | 8 => '8' | _ => '9'

/-- Fuelled worker for `natDigits` (the fuel only bounds the recursion
depth; `natDigits` always supplies enough). -/
def natDigitsAux : Nat → Nat → List Char
  | 0, _ => []
  | fuel + 1, n =>
    if n < 10 then [digitChar n]
    else natDigitsAux fuel (n / 10) ++ [digitChar (n % 10)]

/-- Decimal digits of a natural number, most significant first (the
characters of Python `repr` of a nonnegative integer). -/
def natDigits (n : Nat) : List Char := natDigitsAux (n + 1) n

/-- Python `repr` of an integer. -/
def pyReprInt (n : Int) : List Char :=
  if n < 0 then '-' :: natDigits n.natAbs else natDigits n.natAbs

/-- Python `repr` escaping inside a quoted string literal: the backslash
and the active quote character are escaped. -/
def escChar (q c : Char) : List Char :=
  if c = '\\' ∨ c = q then ['\\', c] else [c]

/-- Escape a whole string for quoting with quote character `q`. -/
def escStr (q : Char) : List Char → List Char
  | [] => []
  | c :: cs => escChar q c ++ escStr q cs

/-- Python `repr` of a string: single-quoted, unless the string contains
a single quote and no double quote, in which case it is double-quoted. -/
def pyReprStr (s : String) : List Char :=
  if s.data.contains '\'' && !(s.data.contains '"')
  then '"' :: (escStr '"' s.data ++ ['"'])
  else '\'' :: (escStr '\'' s.data ++ ['\''])

mutual

/-- Python `repr` of a `Value` (`str` and `repr` agree on these values). -/
def renderValue : Value → List Char
  | .int n => pyReprInt n
  | .str s => pyReprStr s
  | .dict es => '{' :: (renderEntries es ++ ['}'])

/-- The comma-separated body of a Python `dict` repr, in insertion
order — Python does NOT sort nested dictionaries. -/
def renderEntries : List (String × Value) → List Char
  | [] => []
  | [(k, v)] => pyReprStr k ++ ':' :: ' ' :: renderValue v
  | (k, v) :: e :: es =>
      pyReprStr k ++ ':' :: ' ' :: renderValue v ++ ',' :: ' ' :: renderEntries (e :: es)

end

/-- Python `repr` of the 2-tuple `(k, v)`. -/
def renderPair : String × Value → List Char
  | (k, v) => '(' :: (pyReprStr k ++ ',' :: ' ' :: (renderValue v ++ [')']))

/-- The comma-separated body of a Python list repr. -/
def renderPairs : List (String × Value) → List Char
  | [] => []
  | [p] => renderPair p
  | p :: q :: ps => renderPair p ++ ',' :: ' ' :: renderPairs (q :: ps)

/-- Python `str` of a list of 2-tuples, e.g. `str(sorted(d.items()))`. -/
def renderTop (l : Payload) : List Char :=
  '[' :: (renderPairs l ++ [']'])

/-- Boolean lexicographic comparison of character lists — the order
Python uses to compare strings (by code point). -/
def lexLe : List Char → List Char → Bool
  | [], _ => true
  | _ :: _, [] => false
  | a :: as, b :: bs =>
    if a < b then true
    else if b < a then false
    else lexLe as bs

/-- Comparison of dict items by key.  `sorted(data.items())` compares
tuples, but the keys of a dict are distinct, so the comparison never
reaches the second components and key order alone is exact. -/
def keyLe (p q : String × Value) : Bool := lexLe p.1.data q.1.data

/-- `sorted(data.items())`: the item list sorted by key. -/
def sortPairs (l : Payload) : Payload :=
  List.insertionSort (fun p q => keyLe p q) l

/-- `str(sorted(data.items())).encode()` — the canonical byte encoding
computed identically in `sign_data` (`iot_device/device_simulator.py`),
`verify_signature` (`app/services/signature.py`) and
`store_hash_on_chain` (`app/routes/iot.py`).  Bytes are modelled as the
character list (the payloads at issue are ASCII-rendered). -/
def canonicalEncode (data : Payload) : List Char :=
  renderTop (sortPairs data)

/-! ## A decoder for the canonical encoding

The decoder below inverts `renderTop`.  It exists purely to prove that
the canonical encoding is injective (sensitivity of the encoding to any
key or value change); it corresponds to no code in the repository. -/

/-- Digit value of a digit character. -/
def charDigit (c : Char) : Nat := c.toNat - 48

/-- Accumulate a list of digit characters into the number it denotes. -/
def digitsToNat (acc : Nat) : List Char → Nat
  | [] => acc
  | c :: cs => digitsToNat (acc * 10 + charDigit c) cs

/-- Parse a maximal nonempty run of digits. -/
def parseNat (input : List Char) : Option (Nat × List Char) :=
  let ds := input.takeWhile (fun c => c.isDigit)
  if ds.isEmpty then none
  else some (digitsToNat 0 ds, input.dropWhile (fun c => c.isDigit))

/-- Parse the body of a quoted string up to the closing quote `q`,
undoing the escaping of `escStr`. -/
def parseQuoted (q : Char) : List Char → Option (List Char × List Char)
  | [] => none
  | c :: rest =>
    if c = q then some ([], rest)
    else if c = '\\' then
      match rest with
      | [] => none
      | d :: rest₂ => (parseQuoted q rest₂).map (fun p => (d :: p.1, p.2))
    else (parseQuoted q rest).map (fun p => (c :: p.1, p.2))

/-- Parse a quoted string (either quote style). -/
def parseKey : List Char → Option (String × List Char)
  | [] => none
  | c :: rest =>
    if c = '\'' then (parseQuoted '\'' rest).map (fun p => (⟨p.1⟩, p.2))
    else if c = '"' then (parseQuoted '"' rest).map (fun p => (⟨p.1⟩, p.2))
    else none

mutual

/-- Parse one `Value` repr.  The fuel only bounds recursion depth. -/
def parseValue : Nat → List Char → Option (Value × List Char)
  | 0, _ => none
  | _ + 1, [] => none
  | fuel + 1, c :: r =>
    if c = '\'' then (parseQuoted '\'' r).map (fun p => (Value.str ⟨p.1⟩, p.2))
    else if c = '"' then (parseQuoted '"' r).map (fun p => (Value.str ⟨p.1⟩, p.2))
    else if c = '{' then
      match r with
      | '}' :: r₂ => some (Value.dict [], r₂)
      | _ => (parseEntries fuel r).map (fun p => (Value.dict p.1, p.2))
    else if c = '-' then
      (parseNat r).map (fun p => (Value.int (-(p.1 : Int)), p.2))
    else
      (parseNat (c :: r)).map (fun p => (Value.int (p.1 : Int), p.2))

/-- Parse a nonempty dict body followed by the closing brace. -/
def parseEntries : Nat → List Char → Option (List (String × Value) × List Char)
  | 0, _ => none
  | fuel + 1, input =>
    match parseKey input with
    | some (k, ':' :: ' ' :: r₂) =>
      match parseValue fuel r₂ with
      | some (v, ',' :: ' ' :: r₄) =>
        match parseEntries fuel r₄ with
        | some (es, r₅) => some ((k, v) :: es, r₅)
        | none => none
      | some (v, '}' :: r₄) => some ([(k, v)], r₄)
      | _ => none
    | _ => none

/-- Parse a nonempty list-of-pairs body followed by the closing bracket. -/
def parsePairs : Nat → List Char → Option (Payload × List Char)
  | 0, _ => none
  | fuel + 1, input =>
    match input with
    | '(' :: r₀ =>
      match parseKey r₀ with
      | some (k, ',' :: ' ' :: r₂) =>
        match parseValue fuel r₂ with
        | some (v, ')' :: r₃) =>
          match r₃ with
          | ',' :: ' ' :: r₄ =>
            match parsePairs fuel r₄ with
            | some (ps, r₅) => some ((k, v) :: ps, r₅)
            | none => none
          | ']' :: r₄ => some ([(k, v)], r₄)
          | _ => none
        | _ => none
      | _ => none
    | _ => none

end

/-- Parse a full Python list-of-pairs repr (the canonical encoding). -/
def parseTop (fuel : Nat) (input : List Char) : Option (Payload × List Char) :=
  match input with
  | '[' :: ']' :: r => some ([], r)
  | '[' :: r => parsePairs fuel r
  | _ => none

mutual

/-- Recursion budget of a `Value` for the fuelled parser. -/
def vsize : Value → Nat
  | .int _ => 1
  | .str _ => 1
  | .dict es => esize es + 1

/-- Recursion budget of an entry list for the fuelled parser. -/
def esize : List (String × Value) → Nat
  | [] => 0
  | (_, v) :: es => vsize v + esize es + 1

end

/-! ## `app/services/signature.py` -/

/-- Abstract model of the external crypto libraries (`hashlib`,
`base64`, `ecdsa`): a fallible call returns `none` where the Python
library raises.  Keys, signatures and digests are opaque byte lists. -/
structure CryptoEnv : Type where
  /-- `hashlib.sha256(b).digest()` — total. -/
  sha256 : List Char → List Nat
  /-- `bytes.fromhex(s)`; `none` models `ValueError`. -/
  fromHex : String → Option (List Nat)
  /-- `VerifyingKey.from_string(b, curve=SECP256k1)`; `none` models the
  library raising on structurally invalid key material. -/
  vkFromString : List Nat → Option (List Nat)
  /-- `base64.b64decode(s)`; `none` models a decoding exception. -/
  b64decode : String → Option (List Nat)
  /-- `vk.verify(sig, digest)`: `none` models `BadSignatureError` being
  raised, `some b` a normal return (the library returns `True`). -/
  vkVerify : List Nat → List Nat → List Nat → Option Bool

/-- A string-keyed, string-valued Python dict (`DEVICE_PUBLIC_KEYS`,
`device_registry`), as an insertion-ordered association list. -/
abbrev StrDict := List (String × String)

/-- `d.get(k)` (also decides `k in d`). -/
def dictGet (m : StrDict) (k : String) : Option String :=
  match m with
  | [] => none
  | (k₂, v) :: rest => if k₂ = k then some v else dictGet rest k

/-- `d[k] = v`: overwrite in place if the key is present, else append
(Python dict assignment preserves insertion order). -/
def dictSet (m : StrDict) (k v : String) : StrDict :=
  match m with
  | [] => [(k, v)]
  | (k₂, w) :: rest => if k₂ = k then (k₂, v) :: rest else (k₂, w) :: dictSet rest k v

/-- `verify_signature(device_id, data, signature)` from
`app/services/signature.py`, with the module-level `DEVICE_PUBLIC_KEYS`
passed explicitly.  `if not pubkey_hex or len(pubkey_hex) < 64` is the
`none` branch plus the length test (an empty string has length `0 < 64`);
every raise inside the `try` lands in the catch-all `except` and
becomes `false`. -/
def verify_signature (env : CryptoEnv) (pubkeys : StrDict)
    (device_id : String) (data : Payload) (signature : String) : Bool :=
  match dictGet pubkeys device_id with
  | none => false
  | some pubkey_hex =>
    if pubkey_hex.length < 64 then false
    else
      let data_hash := env.sha256 (canonicalEncode data)
      match env.fromHex pubkey_hex with
      | none => false
      | some key_bytes =>
        match env.vkFromString key_bytes with
        | none => false
        | some vk =>
          match env.b64decode signature with
          | none => false
          | some sig_bytes =>
            match env.vkVerify vk sig_bytes data_hash with
            | none => false
            | some b => b

/-! ## `app/services/blockchain.py` -/

/-- A transaction receipt from `w3.eth.wait_for_transaction_receipt`:
execution status (1 = success, 0 = reverted) and block number. -/
structure Receipt : Type where
  status : Nat
  blockNumber : Nat
deriving DecidableEq

/-- The pydantic model `TransactionResult`. -/
structure TransactionResult : Type where
  tx_hash : String
  status : Nat
  block_number : Nat
deriving DecidableEq

/-- Abstract model of the `web3` calls inside
`execute_contract_function`, in program order.  A `none` models the
step raising (connection loss, malformed response, signing failure);
`waitReceipt` returns `none` on the 120-second confirmation timeout. -/
structure ChainEnv : Type where
  /-- `getattr(self.contract.functions, function_name)(*args)`. -/
  contractFunction : Option Unit
  /-- `w3.eth.get_transaction_count(account_address)` — the live
  nonce read. -/
  nonce : Option Nat
  /-- `w3.eth.gas_price`. -/
  gasPrice : Option Nat
  /-- `contract_function.build_transaction({from, nonce, gas, gasPrice})`. -/
  buildTx : Nat → Nat → Option (List Nat)
  /-- `w3.eth.account.sign_transaction(tx, private_key)`. -/
  signTx : List Nat → Option (List Nat)
  /-- `w3.eth.send_raw_transaction(...)`, giving `tx_hash.hex()`. -/
  sendRaw : List Nat → Option String
  /-- `w3.eth.wait_for_transaction_receipt(tx_hash, timeout=120)`. -/
  waitReceipt : String → Option Receipt

/-- `BlockchainService.execute_contract_function`: the `try` block runs
the steps in order; any raise lands in the `except` block, which logs
and returns `None`.  When a receipt is obtained — whatever its
`status` — the result dict is returned. -/
def execute_contract_function (env : ChainEnv) : Option TransactionResult :=
  match env.contractFunction with
  | none => none
  | some _ =>
    match env.nonce with
    | none => none
    | some nonce =>
      match env.gasPrice with
      | none => none
      | some gasPrice =>
        match env.buildTx nonce gasPrice with
        | none => none
        | some tx =>
          match env.signTx tx with
          | none => none
          | some signed_tx =>
            match env.sendRaw signed_tx with
            | none => none
            | some tx_hash =>
              match env.waitReceipt tx_hash with
              | none => none
              | some receipt =>
                some { tx_hash := tx_hash, status := receipt.status,
                       block_number := receipt.blockNumber }

/-- `BlockchainService.store_data_hash`: delegates to
`execute_contract_function("storeDataHash", ...)` and wraps a non-`None`
result dict in `TransactionResult`. -/
def store_data_hash (env : ChainEnv) : Option TransactionResult :=
  execute_contract_function env

/-! ## `app/routes/iot.py` -/

/-- The `Web3.to_checksum_address` helper environment of
`get_device_address`; `accountAddress` is `config.account_address`
(validated as an address at startup by `BlockchainConfig`). -/
structure AddrEnv : Type where
  toChecksum : String → Option String
  accountAddress : String

/-- `get_device_address`: checksum the device id if it is a hex address,
else fall back to the configured account address (whose own checksum
call may in principle still raise, propagating upward — the `none`). -/
def get_device_address (env : AddrEnv) (device_id : String) : Option String :=
  match env.toChecksum device_id with
  | some a => some a
  | none => env.toChecksum env.accountAddress

/-- One invocation of the contract write recorded with its arguments
(`storeDataHash(_ipfsHash, _dataType, _deviceId, _dataHash)`). -/
structure ChainCall : Type where
  functionName : String
  ipfsHash : String
  dataType : String
  deviceAddress : String
  dataHash : List Nat
deriving DecidableEq

/-- Exceptions escaping `store_hash_on_chain`. -/
inductive StoreErr : Type where
  /-- `Web3.to_checksum_address` raised on the fallback path. -/
  | addressError
  /-- `raise Exception("Blockchain transaction failed")` — raised only
  when `store_data_hash` returned `None`; a `TransactionResult` object
  is truthy even with `status = 0`. -/
  | txFailed
deriving DecidableEq

/-- `store_hash_on_chain(device_id, cid, data, data_type)`: computes
`data_hash = sha256(str(sorted(data.items())).encode())` from the very
dict it is handed, submits the transaction, and returns `tx_hash`.
Also returns the contract calls attempted, with their arguments. -/
def store_hash_on_chain (crypto : CryptoEnv) (addr : AddrEnv) (chain : ChainEnv)
    (device_id cid : String) (data : Payload) (data_type : String) :
    Except StoreErr String × List ChainCall :=
  match get_device_address addr device_id with
  | none => (.error .addressError, [])
  | some device_address =>
    let data_hash := crypto.sha256 (canonicalEncode data)
    let call : ChainCall :=
      { functionName := "storeDataHash", ipfsHash := cid, dataType := data_type,
        deviceAddress := device_address, dataHash := data_hash }
    match store_data_hash chain with
    | none => (.error .txFailed, [call])
    | some tx_result => (.ok tx_result.tx_hash, [call])

/-- `upload_to_ipfs` (`app/services/ipfs.py`): uploads
`json.dumps(data).encode()` and returns the CID; the `Except.error`
models the client raising. -/
structure IpfsEnv : Type where
  add : Payload → Except String String

/-- All collaborator environments of one upload request. -/
structure PipelineEnv : Type where
  crypto : CryptoEnv
  addr : AddrEnv
  chain : ChainEnv
  ipfs : IpfsEnv

/-- The collaborator invocations performed by one request: the payloads
passed to `upload_to_ipfs` and the contract writes attempted. -/
structure Effects : Type where
  ipfsCalls : List Payload
  chainCalls : List ChainCall

/-- No collaborator was invoked. -/
def noEffects : Effects := { ipfsCalls := [], chainCalls := [] }

/-- The request body of `POST /upload` after pydantic validation
(`IoTData` in `app/models/iot_data.py`). -/
structure IoTData : Type where
  device_id : String
  data : Payload
  signature : String

/-- `device_id.startswith("IOT-")`. -/
def startsWithIOT (device_id : String) : Bool :=
  "IOT-".data.isPrefixOf device_id.data

/-- The pydantic validator on `IoTData.device_id`: FastAPI rejects the
request body with a validation error before the route handler runs
unless the id starts with `IOT-`. -/
def validate_iot_data (device_id : String) (data : Payload) (signature : String) :
    Except String IoTData :=
  if startsWithIOT device_id
  then .ok { device_id := device_id, data := data, signature := signature }
  else .error "device_id must start with IOT-"

/-- The outcome of one `POST /upload` request as the caller sees it. -/
inductive UploadResult : Type where
  /-- 422: pydantic validation error, handler never entered. -/
  | validationError (msg : String)
  /-- 401: `Device not registered`. -/
  | notRegistered
  /-- 401: `Invalid signature or fake device`. -/
  | invalidSignature
  /-- 500: `IPFS upload failed`. -/
  | ipfsFailed (msg : String)
  /-- 500: `Blockchain write failed`. -/
  | blockchainFailed (err : StoreErr)
  /-- 200 with `device_id`, `ipfs_cid`, `tx_hash`. -/
  | success (device_id ipfs_cid tx_hash : String)

/-- `upload_iot_data` (the `POST /upload` handler), given the two module
registries.  Returns the response and the collaborator calls made. -/
def upload_iot_data (env : PipelineEnv) (device_registry pubkeys : StrDict)
    (iot_data : IoTData) : UploadResult × Effects :=
  match dictGet device_registry iot_data.device_id with
  | none => (.notRegistered, noEffects)
  | some _ =>
    if verify_signature env.crypto pubkeys iot_data.device_id iot_data.data
        iot_data.signature = false then
      (.invalidSignature, noEffects)
    else
      match env.ipfs.add iot_data.data with
      | .error e => (.ipfsFailed e, { ipfsCalls := [iot_data.data], chainCalls := [] })
      | .ok cid =>
        match store_hash_on_chain env.crypto env.addr env.chain iot_data.device_id
            cid iot_data.data "sensor" with
        | (.error err, calls) =>
          (.blockchainFailed err, { ipfsCalls := [iot_data.data], chainCalls := calls })
        | (.ok tx_hash, calls) =>
          (.success iot_data.device_id cid tx_hash,
           { ipfsCalls := [iot_data.data], chainCalls := calls })

/-- The upload endpoint as reached over HTTP: pydantic validation of
the request body, then the handler. -/
def upload_endpoint (env : PipelineEnv) (device_registry pubkeys : StrDict)
    (device_id : String) (data : Payload) (signature : String) :
    UploadResult × Effects :=
  match validate_iot_data device_id data signature with
  | .error e => (.validationError e, noEffects)
  | .ok iot_data => upload_iot_data env device_registry pubkeys iot_data

/-- Response of `POST /register`. -/
inductive RegisterResult : Type where
  /-- 400: `device_id and public_key are required`. -/
  | badRequest
  /-- 200: `Device registered successfully`. -/
  | registered
deriving DecidableEq

/-- The shared mutable module state: `device_registry` in
`app/routes/iot.py` and `DEVICE_PUBLIC_KEYS` in
`app/services/signature.py`. -/
structure AppState : Type where
  device_registry : StrDict
  device_public_keys : StrDict
deriving DecidableEq

/-- Both dicts start empty when the process starts. -/
def initState : AppState := { device_registry := [], device_public_keys := [] }

/-- `register_device` (`POST /register`): empty `device_id` or
`public_key` is rejected with 400 leaving both dicts untouched;
otherwise the key is written into both dicts. -/
def register_device (st : AppState) (device_id public_key : String) :
    AppState × RegisterResult :=
  if device_id = "" ∨ public_key = "" then (st, .badRequest)
  else
    ({ device_registry := dictSet st.device_registry device_id public_key,
       device_public_keys := dictSet st.device_public_keys device_id public_key },
     .registered)

/-- One externally triggered operation on the server. -/
inductive Op : Type where
  | register (device_id public_key : String)
  | upload (env : PipelineEnv) (device_id : String) (data : Payload) (signature : String)
  | verify (env : CryptoEnv) (device_id : String) (data : Payload) (signature : String)

/-- The state transition of one operation: `register_device` writes the
two dicts; the upload handler and `verify_signature` contain no
assignment to either module dict and only read them. -/
def stepState (st : AppState) : Op → AppState
  | .register device_id public_key => (register_device st device_id public_key).1
  | .upload _ _ _ _ => st
  | .verify _ _ _ _ => st

/-- Server states reachable from process start by any request sequence. -/
inductive Reachable : AppState → Prop where
  | init : Reachable initState
  | step (st : AppState) (op : Op) : Reachable st → Reachable (stepState st op)

/-! ## Nonce handling across concurrent anchor calls

`execute_contract_function` reads the live account nonce
(`w3.eth.get_transaction_count`) and only later submits the signed
transaction; no lock or queue in the code serializes the two steps
across requests, so steps of distinct calls may interleave freely.
The ledger side is modelled from the spec (§4.5, glossary): a nonce is
the account's monotonically increasing transaction sequence number and
a submission is accepted exactly when it carries the next one. -/

namespace Nonce

/-- Progress of one anchor call: not started, nonce read, or finished
(accepted or rejected by the ledger) carrying the nonce it used. -/
inductive Phase : Type where
  | start
  | readNonce (n : Nat)
  | done (accepted : Bool) (n : Nat)
deriving DecidableEq

/-- Ledger plus in-flight anchor calls: `txCount` is what
`get_transaction_count` answers for the signing account. -/
structure World : Type where
  txCount : Nat
  calls : Nat → Phase

/-- Pointwise update of the call table. -/
def updateCalls (f : Nat → Phase) (i : Nat) (p : Phase) : Nat → Phase :=
  fun j => if j = i then p else f j

/-- One scheduler step of call `i`: first step performs the live nonce
read of `execute_contract_function`; second step submits, and (modelled
from the spec) the ledger accepts exactly the next sequence number. -/
def stepCall (w : World) (i : Nat) : World :=
  match w.calls i with
  | .start => { w with calls := updateCalls w.calls i (.readNonce w.txCount) }
  | .readNonce n =>
    if n = w.txCount then
      { txCount := w.txCount + 1, calls := updateCalls w.calls i (.done true n) }
    else
      { w with calls := updateCalls w.calls i (.done false n) }
  | .done _ _ => w

/-- Run a schedule (a list of call indices, each occurrence running one
step of that call). -/
def runSched (w : World) : List Nat → World
  | [] => w
  | i :: rest => runSched (stepCall w i) rest

/-- All calls pending, the account having `n₀` prior transactions. -/
def initWorld (n₀ : Nat) : World := { txCount := n₀, calls := fun _ => .start }

/-- The fully serialized schedule of calls `0 .. N-1`: each call's nonce
read is immediately followed by its submission. -/
def seqSched (N : Nat) : List Nat :=
  (List.range N).flatMap (fun i => [i, i])

end Nonce

/-! ## Concrete sample environments, used to evaluate concrete runs -/

/-- A sample 64-character key string (passes the length check). -/
def sampleKey : String :=
  "0123456789abcdef0123456789abcdef0123456789abcdef0123456789abcdef"

/-- A crypto environment in which every library call succeeds and the
signature check accepts. -/
def happyCrypto : CryptoEnv :=
  { sha256 := fun bs => [bs.length]
    fromHex := fun s => some [s.length]
    vkFromString := fun b => some b
    b64decode := fun s => some [s.length]
    vkVerify := fun _ _ _ => some true }

/-- A benign address helper. -/
def sampleAddr : AddrEnv :=
  { toChecksum := fun _ => some "0xA1", accountAddress := "0xa1" }

/-- A chain environment in which every web3 step succeeds and the
receipt reports success (status 1). -/
def happyChain : ChainEnv :=
  { contractFunction := some ()
    nonce := some 7
    gasPrice := some 3
    buildTx := fun _ _ => some [0]
    signTx := fun _ => some [1]
    sendRaw := fun _ => some "0xfeed"
    waitReceipt := fun _ => some { status := 1, blockNumber := 99 } }

/-- Like `happyChain`, but the obtained receipt reports a reverted
transaction (status 0). -/
def revertChain : ChainEnv :=
  { happyChain with waitReceipt := fun _ => some { status := 0, blockNumber := 99 } }

/-- An IPFS client whose upload succeeds. -/
def happyIpfs : IpfsEnv := { add := fun _ => .ok "QmSampleCid" }

/-- A pipeline environment in which every collaborator succeeds. -/
def happyEnv : PipelineEnv :=
  { crypto := happyCrypto, addr := sampleAddr, chain := happyChain, ipfs := happyIpfs }

/-- A pipeline environment whose only deviation from `happyEnv` is the
reverted receipt. -/
def revertEnv : PipelineEnv := { happyEnv with chain := revertChain }

/-- A chain environment in which the receipt wait times out. -/
def timeoutChain : ChainEnv :=
  { happyChain with waitReceipt := fun _ => none }

/-- A pipeline environment whose only deviation is the receipt timeout. -/
def timeoutEnv : PipelineEnv := { happyEnv with chain := timeoutChain }

/-- The server state after registering one device. -/
def sampleState : AppState :=
  (register_device initState "IOT-AB12CD34" sampleKey).1

/-! ## Helper lemmas -/

theorem dictGet_dictSet_self (m : StrDict) (k v : String) :
    dictGet (dictSet m k v) k = some v := by
  induction m with
  | nil => simp [dictSet, dictGet]
  | cons hd tl ih =>
    obtain ⟨k₂, w⟩ := hd
    by_cases hk : k₂ = k
    · subst hk; simp [dictSet, dictGet]
    · simp [dictSet, dictGet, hk, ih]

theorem register_device_empty (st : AppState) (device_id public_key : String)
    (h : device_id = "" ∨ public_key = "") :
    register_device st device_id public_key = (st, .badRequest) := by
  simp [register_device, if_pos h]

theorem register_device_ok (st : AppState) (device_id public_key : String)
    (h₁ : device_id ≠ "") (h₂ : public_key ≠ "") :
    register_device st device_id public_key =
      ({ device_registry := dictSet st.device_registry device_id public_key,
         device_public_keys := dictSet st.device_public_keys device_id public_key },
       .registered) := by
  have h : ¬ (device_id = "" ∨ public_key = "") := by
    rintro (h | h) <;> [exact h₁ h; exact h₂ h]
  simp [register_device, if_neg h]

/-- In every reachable state, the two module registries are equal as
dicts: both start empty and every write goes identically to both. -/
theorem reachable_registries_eq (st : AppState) (h : Reachable st) :
    st.device_registry = st.device_public_keys := by
  induction h with
  | init => rfl
  | step st op _ ih =>
    cases op with
    | register device_id public_key =>
      by_cases hc : device_id = "" ∨ public_key = ""
      · simp [stepState, register_device_empty st _ _ hc, ih]
      · push_neg at hc
        simp [stepState, register_device_ok st _ _ hc.1 hc.2, ih]
    | upload env device_id data signature => exact ih
    | verify env device_id data signature => exact ih

/-! ## Claims C7, C8, C9, C10 -/

/-- C7: `register_device` rejects an empty `device_id` or `public_key`
with a 400 invalid-input error leaving the registry unchanged, and
otherwise succeeds unconditionally, storing — or overwriting, last
write wins — the key for that id. -/
theorem C7_register_contract (st : AppState) (device_id public_key : String) :
    (device_id = "" ∨ public_key = "" →
      register_device st device_id public_key = (st, .badRequest)) ∧
    (device_id ≠ "" → public_key ≠ "" →
      (register_device st device_id public_key).2 = .registered ∧
      dictGet (register_device st device_id public_key).1.device_registry device_id =
        some public_key ∧
      dictGet (register_device st device_id public_key).1.device_public_keys device_id =
        some public_key) := by
  refine ⟨register_device_empty st device_id public_key, fun h₁ h₂ => ?_⟩
  simp [register_device_ok st device_id public_key h₁ h₂, dictGet_dictSet_self]

/-- Witness for C7 at concrete inputs. -/
theorem C7_register_contract_witness :
    register_device initState "" sampleKey = (initState, .badRequest) ∧
    (register_device initState "IOT-AB12CD34" sampleKey).2 = .registered := by
  refine ⟨(C7_register_contract initState "" sampleKey).1 (Or.inl rfl), ?_⟩
  exact ((C7_register_contract initState "IOT-AB12CD34" sampleKey).2
    (by decide) (by decide)).1

/-- C8: `verify_signature` has no side effect: the verify operation
leaves the whole server state unchanged for every environment, every
argument, and either verification outcome. -/
theorem C8_verify_no_side_effect (st : AppState) (env : CryptoEnv)
    (device_id : String) (data : Payload) (signature : String) :
    stepState st (.verify env device_id data signature) = st := rfl

/-- C9: every successful registration writes the same key under the same
id into both module dicts and no other operation writes either; hence in
every reachable state the upload endpoint's registration check succeeds
exactly when the verifier's key lookup does, and both agree on the key. -/
theorem C9_registry_sync (st : AppState) (h : Reachable st) (device_id : String) :
    dictGet st.device_registry device_id = dictGet st.device_public_keys device_id ∧
    ((dictGet st.device_registry device_id).isSome ↔
      (dictGet st.device_public_keys device_id).isSome) := by
  rw [reachable_registries_eq st h]
  exact ⟨rfl, Iff.rfl⟩

/-- Witness for C9 in the reachable state with one registered device. -/
theorem C9_registry_sync_witness :
    dictGet sampleState.device_registry "IOT-AB12CD34" =
      dictGet sampleState.device_public_keys "IOT-AB12CD34" ∧
    ((dictGet sampleState.device_registry "IOT-AB12CD34").isSome ↔
      (dictGet sampleState.device_public_keys "IOT-AB12CD34").isSome) :=
  C9_registry_sync sampleState
    (Reachable.step initState (.register "IOT-AB12CD34" sampleKey) Reachable.init)
    "IOT-AB12CD34"

/-- C10: the upload endpoint's pydantic model rejects, at input
validation and before any pipeline stage, every device id that does not
start with `IOT-`, while registration imposes no prefix constraint; so a
device registered under a non-`IOT-` id can never upload. -/
theorem C10_prefix_mismatch (st : AppState) (env : PipelineEnv)
    (device_id public_key : String) (data : Payload) (signature : String)
    (hid : device_id ≠ "") (hpk : public_key ≠ "")
    (hpre : startsWithIOT device_id = false) :
    (register_device st device_id public_key).2 = .registered ∧
    ∀ reg pubkeys : StrDict,
      upload_endpoint env reg pubkeys device_id data signature =
        (.validationError "device_id must start with IOT-", noEffects) := by
  refine ⟨by simp [register_device_ok st device_id public_key hid hpk], fun reg pubkeys => ?_⟩
  simp [upload_endpoint, validate_iot_data, hpre]

/-- Witness for C10: a device with id `sensor7` registers fine and every
upload attempt it makes is rejected at validation. -/
theorem C10_prefix_mismatch_witness :
    (register_device initState "sensor7" sampleKey).2 = .registered ∧
    ∀ reg pubkeys : StrDict,
      upload_endpoint happyEnv reg pubkeys "sensor7" [] "sig" =
        (.validationError "device_id must start with IOT-", noEffects) :=
  C10_prefix_mismatch initState happyEnv "sensor7" sampleKey [] "sig"
    (by decide) (by decide) (by decide)

/-! ## Claims C5 and C6 -/

/-- C5: `verify_signature` is a total Boolean function: an unknown
device, a short registered key, a hex-decode failure on the key,
malformed key material, a base64-decode failure on the signature, or a
raised `BadSignatureError` each yield `false` (never an exception), and
it returns `true` when the library verifies the signature against the
SHA-256 of the canonical encoding under the registered key. -/
theorem C5_verify_contract (env : CryptoEnv) (pubkeys : StrDict)
    (device_id : String) (data : Payload) (signature : String) :
    (dictGet pubkeys device_id = none →
      verify_signature env pubkeys device_id data signature = false) ∧
    (∀ pk, dictGet pubkeys device_id = some pk → pk.length < 64 →
      verify_signature env pubkeys device_id data signature = false) ∧
    (∀ pk, dictGet pubkeys device_id = some pk → env.fromHex pk = none →
      verify_signature env pubkeys device_id data signature = false) ∧
    (∀ pk kb, dictGet pubkeys device_id = some pk → env.fromHex pk = some kb →
      env.vkFromString kb = none →
      verify_signature env pubkeys device_id data signature = false) ∧
    (∀ pk kb vk, dictGet pubkeys device_id = some pk → env.fromHex pk = some kb →
      env.vkFromString kb = some vk → env.b64decode signature = none →
      verify_signature env pubkeys device_id data signature = false) ∧
    (∀ pk kb vk sb, dictGet pubkeys device_id = some pk → env.fromHex pk = some kb →
      env.vkFromString kb = some vk → env.b64decode signature = some sb →
      env.vkVerify vk sb (env.sha256 (canonicalEncode data)) = none →
      verify_signature env pubkeys device_id data signature = false) ∧
    (∀ pk kb vk sb, dictGet pubkeys device_id = some pk → ¬ pk.length < 64 →
      env.fromHex pk = some kb → env.vkFromString kb = some vk →
      env.b64decode signature = some sb →
      env.vkVerify vk sb (env.sha256 (canonicalEncode data)) = some true →
      verify_signature env pubkeys device_id data signature = true) := by
  refine ⟨fun h => ?_, fun pk h hl => ?_, fun pk h hx => ?_, fun pk kb h hx hk => ?_,
    fun pk kb vk h hx hk hb => ?_, fun pk kb vk sb h hx hk hb hv => ?_,
    fun pk kb vk sb h hl hx hk hb hv => ?_⟩
  · simp [verify_signature, h]
  · simp [verify_signature, h, hl]
  · by_cases hl : pk.length < 64 <;> simp [verify_signature, h, hl, hx]
  · by_cases hl : pk.length < 64 <;> simp [verify_signature, h, hl, hx, hk]
  · by_cases hl : pk.length < 64 <;> simp [verify_signature, h, hl, hx, hk, hb]
  · by_cases hl : pk.length < 64 <;> simp [verify_signature, h, hl, hx, hk, hb, hv]
  · simp [verify_signature, h, hl, hx, hk, hb, hv]

/-- Witness for C5: a registered device with a happy crypto environment
verifies, and an unknown device yields false. -/
theorem C5_verify_contract_witness :
    verify_signature happyCrypto [("IOT-AB12CD34", sampleKey)]
      "IOT-AB12CD34" [("t", .int 21)] "c2ln" = true ∧
    verify_signature happyCrypto [] "IOT-AB12CD34" [("t", .int 21)] "c2ln" = false := by
  constructor
  · exact (C5_verify_contract happyCrypto [("IOT-AB12CD34", sampleKey)]
      "IOT-AB12CD34" [("t", .int 21)] "c2ln").2.2.2.2.2.2 sampleKey [sampleKey.length]
      [sampleKey.length] ["c2ln".length] (by decide) (by decide) rfl rfl rfl rfl
  · exact (C5_verify_contract happyCrypto [] "IOT-AB12CD34" [("t", .int 21)] "c2ln").1 rfl

/-- C6: an unregistered device id is rejected as not registered, and a
registered device whose signature fails verification is rejected as an
invalid signature; in both cases the handler returns before the IPFS
client or the blockchain service is invoked. -/
theorem C6_reject_before_effects (env : PipelineEnv) (reg pubkeys : StrDict)
    (iot : IoTData) :
    (dictGet reg iot.device_id = none →
      upload_iot_data env reg pubkeys iot = (.notRegistered, noEffects)) ∧
    (∀ pk, dictGet reg iot.device_id = some pk →
      verify_signature env.crypto pubkeys iot.device_id iot.data iot.signature = false →
      upload_iot_data env reg pubkeys iot = (.invalidSignature, noEffects)) := by
  constructor
  · intro h; simp [upload_iot_data, h]
  · intro pk h hv; simp [upload_iot_data, h, hv]

/-- Witness for C6: an unknown device is turned away with no effects,
and a registered device with an unverifiable signature likewise. -/
theorem C6_reject_before_effects_witness :
    upload_iot_data happyEnv [] [] { device_id := "IOT-AB12CD34", data := [], signature := "s" } =
      (.notRegistered, noEffects) ∧
    upload_iot_data happyEnv [("IOT-AB12CD34", sampleKey)] []
      { device_id := "IOT-AB12CD34", data := [], signature := "s" } =
      (.invalidSignature, noEffects) := by
  constructor
  · exact (C6_reject_before_effects happyEnv [] []
      { device_id := "IOT-AB12CD34", data := [], signature := "s" }).1 rfl
  · exact (C6_reject_before_effects happyEnv [("IOT-AB12CD34", sampleKey)] []
      { device_id := "IOT-AB12CD34", data := [], signature := "s" }).2 sampleKey rfl rfl

/-! ## Claim C4 -/

/-- C4: on every successful pipeline run, the `data_hash` handed to the
contract is the SHA-256 of the canonical encoding of the very in-memory
payload dict that was passed to the IPFS upload call; it is recomputed
from that same dict (the handler holds no bytes fetched back from
storage it could hash instead). -/
theorem C4_hash_from_uploaded_payload (env : PipelineEnv) (reg pubkeys : StrDict)
    (iot : IoTData) (d c t : String)
    (h : (upload_iot_data env reg pubkeys iot).1 = .success d c t) :
    (upload_iot_data env reg pubkeys iot).2.ipfsCalls = [iot.data] ∧
    (upload_iot_data env reg pubkeys iot).2.chainCalls.map ChainCall.dataHash =
      [env.crypto.sha256 (canonicalEncode iot.data)] := by
  cases hreg : dictGet reg iot.device_id with
  | none => simp [upload_iot_data, hreg] at h
  | some pk =>
    by_cases hv : verify_signature env.crypto pubkeys iot.device_id iot.data
        iot.signature = false
    · simp [upload_iot_data, hreg, hv] at h
    · cases hipfs : env.ipfs.add iot.data with
      | error e => simp [upload_iot_data, hreg, hv, hipfs] at h
      | ok cid =>
        cases haddr : get_device_address env.addr iot.device_id with
        | none =>
          simp [upload_iot_data, store_hash_on_chain, hreg, hv, hipfs, haddr] at h
        | some a =>
          cases hs : store_data_hash env.chain with
          | none =>
            simp [upload_iot_data, store_hash_on_chain, hreg, hv, hipfs, haddr, hs] at h
          | some tr =>
            simp [upload_iot_data, store_hash_on_chain, hreg, hv, hipfs, haddr, hs]

/-- Witness for C4 on a concrete successful run. -/
theorem C4_hash_from_uploaded_payload_witness :
    (upload_iot_data happyEnv [("IOT-AB12CD34", sampleKey)] [("IOT-AB12CD34", sampleKey)]
        { device_id := "IOT-AB12CD34", data := [("t", .int 21)], signature := "c2ln" }).2.ipfsCalls =
      [[("t", .int 21)]] ∧
    (upload_iot_data happyEnv [("IOT-AB12CD34", sampleKey)] [("IOT-AB12CD34", sampleKey)]
        { device_id := "IOT-AB12CD34", data := [("t", .int 21)], signature := "c2ln" }).2.chainCalls.map
        ChainCall.dataHash =
      [happyEnv.crypto.sha256 (canonicalEncode [("t", .int 21)])] :=
  C4_hash_from_uploaded_payload happyEnv [("IOT-AB12CD34", sampleKey)]
    [("IOT-AB12CD34", sampleKey)]
    { device_id := "IOT-AB12CD34", data := [("t", .int 21)], signature := "c2ln" }
    "IOT-AB12CD34" "QmSampleCid" "0xfeed" rfl

/-! ## Claim C1 -/

/-- C1 is violated by the code: with every web3 step succeeding but the
receipt reporting failure status 0 (a reverted transaction),
`execute_contract_function` still returns a result dict carrying
`status = 0`, `store_hash_on_chain` finds the wrapped
`TransactionResult` truthy (`if not tx_result` only catches `None`) and
returns its `tx_hash`, and the handler answers `Upload successful` — a
reverted transaction is reported as a successful upload. -/
theorem C1_counterexample :
    revertChain.waitReceipt "0xfeed" = some { status := 0, blockNumber := 99 } ∧
    execute_contract_function revertChain =
      some { tx_hash := "0xfeed", status := 0, block_number := 99 } ∧
    (upload_iot_data revertEnv [("IOT-AB12CD34", sampleKey)] [("IOT-AB12CD34", sampleKey)]
        { device_id := "IOT-AB12CD34", data := [("t", .int 21)], signature := "c2ln" }).1 =
      .success "IOT-AB12CD34" "QmSampleCid" "0xfeed" :=
  ⟨rfl, rfl, rfl⟩

/-- C1 amended: when a lower-layer step raises or the receipt wait times
out, `execute_contract_function` returns `None` and the pipeline reports
a classified ledger failure; but when a receipt is obtained the result
carries the receipt's status and the pipeline reports a successful
upload regardless of that status — reverted transactions included. -/
theorem C1_amended_receipt_classification (env : PipelineEnv) (reg pubkeys : StrDict)
    (iot : IoTData) (pk cid : String)
    (hreg : dictGet reg iot.device_id = some pk)
    (hver : verify_signature env.crypto pubkeys iot.device_id iot.data iot.signature = true)
    (hipfs : env.ipfs.add iot.data = .ok cid)
    (haddr : get_device_address env.addr iot.device_id ≠ none) :
    (∀ f nonce gas tx stx txh r, env.chain.contractFunction = some f →
      env.chain.nonce = some nonce → env.chain.gasPrice = some gas →
      env.chain.buildTx nonce gas = some tx → env.chain.signTx tx = some stx →
      env.chain.sendRaw stx = some txh → env.chain.waitReceipt txh = some r →
      execute_contract_function env.chain =
        some { tx_hash := txh, status := r.status, block_number := r.blockNumber }) ∧
    (∀ tr, execute_contract_function env.chain = some tr →
      (upload_iot_data env reg pubkeys iot).1 = .success iot.device_id cid tr.tx_hash) ∧
    (execute_contract_function env.chain = none →
      (upload_iot_data env reg pubkeys iot).1 = .blockchainFailed .txFailed) := by
  obtain ⟨a, ha⟩ := Option.ne_none_iff_exists'.mp haddr
  have hvf : ¬ verify_signature env.crypto pubkeys iot.device_id iot.data
      iot.signature = false := by simp [hver]
  refine ⟨fun f nonce gas tx stx txh r h₁ h₂ h₃ h₄ h₅ h₆ h₇ => ?_, fun tr htr => ?_, fun hn => ?_⟩
  · simp [execute_contract_function, h₁, h₂, h₃, h₄, h₅, h₆, h₇]
  · simp [upload_iot_data, hreg, hvf, hipfs, store_hash_on_chain, ha,
      store_data_hash, htr]
  · simp [upload_iot_data, hreg, hvf, hipfs, store_hash_on_chain, ha,
      store_data_hash, hn]

/-- Witness for the amended C1: a success-receipt run reports success
and a timed-out run reports the classified ledger failure. -/
theorem C1_amended_receipt_classification_witness :
    (upload_iot_data happyEnv [("IOT-AB12CD34", sampleKey)] [("IOT-AB12CD34", sampleKey)]
        { device_id := "IOT-AB12CD34", data := [("t", .int 21)], signature := "c2ln" }).1 =
      .success "IOT-AB12CD34" "QmSampleCid" "0xfeed" ∧
    (upload_iot_data timeoutEnv [("IOT-AB12CD34", sampleKey)] [("IOT-AB12CD34", sampleKey)]
        { device_id := "IOT-AB12CD34", data := [("t", .int 21)], signature := "c2ln" }).1 =
      .blockchainFailed .txFailed := by
  constructor
  · exact (C1_amended_receipt_classification happyEnv [("IOT-AB12CD34", sampleKey)]
      [("IOT-AB12CD34", sampleKey)]
      { device_id := "IOT-AB12CD34", data := [("t", .int 21)], signature := "c2ln" }
      sampleKey "QmSampleCid" rfl rfl rfl (by decide)).2.1
      { tx_hash := "0xfeed", status := 1, block_number := 99 } rfl
  · exact (C1_amended_receipt_classification timeoutEnv [("IOT-AB12CD34", sampleKey)]
      [("IOT-AB12CD34", sampleKey)]
      { device_id := "IOT-AB12CD34", data := [("t", .int 21)], signature := "c2ln" }
      sampleKey "QmSampleCid" rfl rfl rfl (by decide)).2.2 rfl

/-! ## Claim C3 -/

theorem runSched_append (w : Nonce.World) (s t : List Nat) :
    Nonce.runSched w (s ++ t) = Nonce.runSched (Nonce.runSched w s) t := by
  induction s generalizing w with
  | nil => rfl
  | cons i s ih => simp [Nonce.runSched, ih]

theorem seqSched_succ (k : Nat) :
    Nonce.seqSched (k + 1) = Nonce.seqSched k ++ [k, k] := by
  simp [Nonce.seqSched, List.range_succ]

/-- Invariant of the serialized schedule: after `k` serialized calls the
account's transaction count advanced by `k`, call `i < k` completed
accepted with nonce `n₀ + i`, and later calls are untouched. -/
theorem seq_invariant (n₀ k : Nat) :
    (Nonce.runSched (Nonce.initWorld n₀) (Nonce.seqSched k)).txCount = n₀ + k ∧
    (∀ i, i < k → (Nonce.runSched (Nonce.initWorld n₀) (Nonce.seqSched k)).calls i =
      .done true (n₀ + i)) ∧
    (∀ i, k ≤ i → (Nonce.runSched (Nonce.initWorld n₀) (Nonce.seqSched k)).calls i =
      .start) := by
  induction k with
  | zero => exact ⟨rfl, fun i hi => absurd hi (Nat.not_lt_zero i), fun i _ => rfl⟩
  | succ k ih =>
    obtain ⟨htx, hdone, hstart⟩ := ih
    rw [seqSched_succ, runSched_append]
    set w := Nonce.runSched (Nonce.initWorld n₀) (Nonce.seqSched k) with hw
    have hck : w.calls k = .start := hstart k le_rfl
    have h₁ : Nonce.runSched w [k, k] =
        { txCount := w.txCount + 1,
          calls := Nonce.updateCalls
            (Nonce.updateCalls w.calls k (.readNonce w.txCount)) k (.done true w.txCount) } := by
      show Nonce.stepCall (Nonce.stepCall w k) k = _
      unfold Nonce.stepCall
      rw [hck]
      simp [Nonce.updateCalls]
    rw [h₁]
    refine ⟨by simp [htx, Nat.add_assoc], fun i hi => ?_, fun i hi => ?_⟩
    · by_cases hik : i = k
      · subst hik; simp [Nonce.updateCalls, htx]
      · simp only [Nonce.updateCalls, if_neg hik]
        exact hdone i (by omega)
    · have hik : i ≠ k := by omega
      simp only [Nonce.updateCalls, if_neg hik]
      exact hstart i (by omega)

/-- C3 amended: the code does not serialize anchor attempts — the nonce
read and the submission of concurrent calls may interleave, and then two
calls can consume the same nonce (see the counterexample).  When the N
calls do run serialized (each call's nonce read immediately followed by
its submission), they consume exactly the N distinct nonces
`n₀ .. n₀+N-1` and every call completes, accepted by the ledger. -/
theorem C3_amended_serialized_nonces (N n₀ : Nat) :
    (Nonce.runSched (Nonce.initWorld n₀) (Nonce.seqSched N)).txCount = n₀ + N ∧
    (∀ i, i < N → (Nonce.runSched (Nonce.initWorld n₀) (Nonce.seqSched N)).calls i =
      .done true (n₀ + i)) :=
  ⟨(seq_invariant n₀ N).1, (seq_invariant n₀ N).2.1⟩

/-- Witness for the amended C3 with three serialized calls. -/
theorem C3_amended_serialized_nonces_witness :
    (Nonce.runSched (Nonce.initWorld 5) (Nonce.seqSched 3)).txCount = 8 ∧
    (Nonce.runSched (Nonce.initWorld 5) (Nonce.seqSched 3)).calls 2 = .done true 7 :=
  ⟨(C3_amended_serialized_nonces 3 5).1, (C3_amended_serialized_nonces 3 5).2 2 (by decide)⟩

/-- C3 is violated by the code: nothing serializes the live nonce read
and the later submission inside `execute_contract_function`, so two
concurrent anchor calls may interleave as read, read, submit, submit;
both read nonce 0, the ledger accepts only the first, and the two calls
consume one distinct nonce rather than two. -/
theorem C3_counterexample :
    (Nonce.runSched (Nonce.initWorld 0) [0, 1, 0, 1]).calls 0 = .done true 0 ∧
    (Nonce.runSched (Nonce.initWorld 0) [0, 1, 0, 1]).calls 1 = .done false 0 ∧
    (Nonce.runSched (Nonce.initWorld 0) [0, 1, 0, 1]).txCount = 1 :=
  ⟨rfl, rfl, rfl⟩

/-! ## Claim C2: the canonical encoder

First the order facts about `lexLe` needed to reason about
`sorted(data.items())`. -/

theorem lexLe_cons_iff (x y : Char) (xs ys : List Char) :
    lexLe (x :: xs) (y :: ys) = true ↔ x < y ∨ (x = y ∧ lexLe xs ys = true) := by
  rcases lt_trichotomy x y with h | h | h
  · simp [lexLe, h, h.ne, lt_asymm h]
  · simp [lexLe, h, lt_irrefl]
  · simp [lexLe, h, h.ne', lt_asymm h]

theorem lexLe_total (a : List Char) : ∀ b, lexLe a b = true ∨ lexLe b a = true := by
  induction a with
  | nil => intro b; left; rfl
  | cons x xs ih =>
    intro b
    cases b with
    | nil => right; rfl
    | cons y ys =>
      rcases lt_trichotomy x y with h | h | h
      · left; rw [lexLe_cons_iff]; exact Or.inl h
      · subst h
        rcases ih ys with h | h
        · left; rw [lexLe_cons_iff]; exact Or.inr ⟨rfl, h⟩
        · right; rw [lexLe_cons_iff]; exact Or.inr ⟨rfl, h⟩
      · right; rw [lexLe_cons_iff]; exact Or.inl h

theorem lexLe_trans (a : List Char) :
    ∀ b c, lexLe a b = true → lexLe b c = true → lexLe a c = true := by
  induction a with
  | nil => intro b c _ _; rfl
  | cons x xs ih =>
    intro b c hab hbc
    cases b with
    | nil => simp [lexLe] at hab
    | cons y ys =>
      cases c with
      | nil => simp [lexLe] at hbc
      | cons z zs =>
        rw [lexLe_cons_iff] at hab hbc ⊢
        rcases hab with h₁ | ⟨h₁, h₁r⟩
        · rcases hbc with h₂ | ⟨h₂, _⟩
          · exact Or.inl (h₁.trans h₂)
          · exact Or.inl (h₂ ▸ h₁)
        · subst h₁
          rcases hbc with h₂ | ⟨h₂, h₂r⟩
          · exact Or.inl h₂
          · exact Or.inr ⟨h₂, ih ys zs h₁r h₂r⟩

theorem lexLe_antisymm (a : List Char) :
    ∀ b, lexLe a b = true → lexLe b a = true → a = b := by
  induction a with
  | nil =>
    intro b _ hba
    cases b with
    | nil => rfl
    | cons y ys => simp [lexLe] at hba
  | cons x xs ih =>
    intro b hab hba
    cases b with
    | nil => simp [lexLe] at hab
    | cons y ys =>
      rw [lexLe_cons_iff] at hab hba
      rcases hab with h₁ | ⟨h₁, h₁r⟩
      · rcases hba with h₂ | ⟨h₂, _⟩
        · exact absurd h₂ (lt_asymm h₁)
        · exact absurd (h₂ ▸ h₁) (lt_irrefl y)
      · subst h₁
        rcases hba with h₂ | ⟨_, h₂r⟩
        · exact absurd h₂ (lt_irrefl x)
        · rw [ih ys h₁r h₂r]

/-- Strings are equal when `lexLe` holds both ways. -/
theorem keyLe_antisymm_keys (p q : String × Value)
    (hpq : keyLe p q = true) (hqp : keyLe q p = true) : p.1 = q.1 :=
  String.ext (lexLe_antisymm p.1.data q.1.data hpq hqp)

/-- `sortPairs` is a permutation of its input (Python `sorted`). -/
theorem sortPairs_perm (l : Payload) : (sortPairs l).Perm l :=
  List.perm_insertionSort _ l

/-- `sortPairs` sorts by key. -/
theorem sortPairs_sorted (l : Payload) :
    List.Sorted (fun p q => keyLe p q = true) (sortPairs l) := by
  haveI : IsTotal (String × Value) (fun p q => keyLe p q = true) :=
    ⟨fun p q => lexLe_total p.1.data q.1.data⟩
  haveI : IsTrans (String × Value) (fun p q => keyLe p q = true) :=
    ⟨fun p q r => lexLe_trans p.1.data q.1.data r.1.data⟩
  exact List.sorted_insertionSort _ l

/-- Two permuted item lists with (the same) duplicate-free keys sort to
the same list — the order-independence core of the canonical encoder. -/
theorem sortPairs_eq_of_perm (l₁ l₂ : Payload) (h : l₁.Perm l₂)
    (hnd : (l₁.map Prod.fst).Nodup) : sortPairs l₁ = sortPairs l₂ := by
  have hperm : (sortPairs l₁).Perm (sortPairs l₂) :=
    (sortPairs_perm l₁).trans (h.trans (sortPairs_perm l₂).symm)
  have hstrict : ∀ l : Payload, l.Perm l₁ →
      List.Pairwise (fun p q : String × Value => keyLe p q = true ∧ p.1 ≠ q.1)
        (sortPairs l) := by
    intro l hl
    have hnd' : ((sortPairs l).map Prod.fst).Nodup :=
      (((sortPairs_perm l).trans hl).map Prod.fst).nodup_iff.mpr hnd
    have hne : List.Pairwise (fun p q : String × Value => p.1 ≠ q.1) (sortPairs l) :=
      List.pairwise_map.mp hnd'
    exact (sortPairs_sorted l).and hne
  exact @List.eq_of_perm_of_sorted _ _
    ⟨fun p q hpq hqp => absurd (keyLe_antisymm_keys p q hpq.1 hqp.1) hpq.2⟩
    _ _ hperm (hstrict l₁ (List.Perm.refl l₁)) (hstrict l₂ h.symm)

/-! ### Round-trip of the decoder over the renderer -/

theorem strMk_data (s : String) : (⟨s.data⟩ : String) = s := by
  cases s; rfl

theorem parseQuoted_escStr (q : Char) (hq : q ≠ '\\') (s : List Char) :
    ∀ rest, parseQuoted q (escStr q s ++ q :: rest) = some (s, rest) := by
  induction s with
  | nil =>
    intro rest
    show parseQuoted q (q :: rest) = some ([], rest)
    unfold parseQuoted
    simp
  | cons c cs ih =>
    intro rest
    by_cases hc : c = '\\' ∨ c = q
    · have h₁ : escChar q c = ['\\', c] := by simp [escChar, hc]
      have h₂ : escStr q (c :: cs) ++ q :: rest =
          '\\' :: c :: (escStr q cs ++ q :: rest) := by
        rw [escStr, h₁]; simp
      rw [h₂]
      unfold parseQuoted
      rw [if_neg (Ne.symm hq)]
      simp [ih rest]
    · push_neg at hc
      have h₁ : escChar q c = [c] := by simp [escChar, hc.1, hc.2]
      have h₂ : escStr q (c :: cs) ++ q :: rest = c :: (escStr q cs ++ q :: rest) := by
        rw [escStr, h₁]; simp
      rw [h₂]
      unfold parseQuoted
      simp [hc.1, hc.2, ih rest]

theorem parseKey_pyReprStr (k : String) (rest : List Char) :
    parseKey (pyReprStr k ++ rest) = some (k, rest) := by
  by_cases hd : (k.data.contains '\'' && !(k.data.contains '"')) = true
  · rw [pyReprStr, if_pos hd]
    simp [parseKey, List.append_assoc,
      parseQuoted_escStr '"' (by decide) k.data rest, strMk_data]
  · rw [pyReprStr, if_neg hd]
    simp [parseKey, List.append_assoc,
      parseQuoted_escStr '\'' (by decide) k.data rest, strMk_data]

theorem digitChar_isDigit (m : Nat) : (digitChar m).isDigit = true := by
  unfold digitChar; split <;> rfl

theorem charDigit_digitChar (m : Nat) (h : m < 10) : charDigit (digitChar m) = m := by
  interval_cases m <;> rfl

theorem natDigitsAux_ne_nil (fuel n : Nat) (h : n < fuel) : natDigitsAux fuel n ≠ [] := by
  cases fuel with
  | zero => omega
  | succ f =>
    unfold natDigitsAux
    by_cases h10 : n < 10 <;> simp [h10]

theorem natDigitsAux_digits (fuel : Nat) :
    ∀ n c, c ∈ natDigitsAux fuel n → c.isDigit = true := by
  induction fuel with
  | zero => intro n c hc; simp [natDigitsAux] at hc
  | succ f ih =>
    intro n c hc
    unfold natDigitsAux at hc
    by_cases h10 : n < 10
    · rw [if_pos h10] at hc
      simp at hc; subst hc; exact digitChar_isDigit n
    · rw [if_neg h10] at hc
      rcases List.mem_append.mp hc with h | h
      · exact ih (n / 10) c h
      · simp at h; subst h; exact digitChar_isDigit _

theorem natDigitsAux_irrel (f₁ : Nat) : ∀ f₂ n, n < f₁ → n < f₂ →
    natDigitsAux f₁ n = natDigitsAux f₂ n := by
  induction f₁ with
  | zero => intro f₂ n h _; omega
  | succ g ih =>
    intro f₂ n h₁ h₂
    cases f₂ with
    | zero => omega
    | succ f =>
      show natDigitsAux (g + 1) n = natDigitsAux (f + 1) n
      unfold natDigitsAux
      by_cases h10 : n < 10
      · simp [h10]
      · have hd : n / 10 < n := Nat.div_lt_self (by omega) (by omega)
        simp only [if_neg h10]
        rw [ih f (n / 10) (by omega) (by omega)]

theorem natDigits_eq (n : Nat) :
    natDigits n =
      if n < 10 then [digitChar n] else natDigits (n / 10) ++ [digitChar (n % 10)] := by
  by_cases h10 : n < 10
  · rw [if_pos h10]; unfold natDigits natDigitsAux; rw [if_pos h10]
  · rw [if_neg h10]
    have hd : n / 10 < n := Nat.div_lt_self (by omega) (by omega)
    show natDigitsAux (n + 1) n = _
    unfold natDigitsAux
    rw [if_neg h10, natDigitsAux_irrel n (n / 10 + 1) (n / 10) (by omega) (by omega)]
    rfl

theorem digitsToNat_append (acc : Nat) (l₁ l₂ : List Char) :
    digitsToNat acc (l₁ ++ l₂) = digitsToNat (digitsToNat acc l₁) l₂ := by
  induction l₁ generalizing acc with
  | nil => rfl
  | cons c cs ih =>
    show digitsToNat (acc * 10 + charDigit c) (cs ++ l₂) = _
    rw [ih]
    rfl

theorem digitsToNat_acc (acc : Nat) (l : List Char) :
    digitsToNat acc l = acc * 10 ^ l.length + digitsToNat 0 l := by
  induction l generalizing acc with
  | nil =>
    show acc = acc * 10 ^ (0 : Nat) + 0
    simp
  | cons c cs ih =>
    have h₀ : digitsToNat 0 (c :: cs) = digitsToNat (0 * 10 + charDigit c) cs := rfl
    have h₁ : digitsToNat acc (c :: cs) = digitsToNat (acc * 10 + charDigit c) cs := rfl
    rw [h₀, h₁, ih (acc * 10 + charDigit c), ih (0 * 10 + charDigit c), List.length_cons]
    ring

theorem digitsToNat_natDigits (n : Nat) : digitsToNat 0 (natDigits n) = n := by
  induction n using Nat.strong_induction_on with
  | _ n ih =>
    rw [natDigits_eq]
    by_cases h10 : n < 10
    · rw [if_pos h10]
      show 0 * 10 + charDigit (digitChar n) = n
      rw [charDigit_digitChar n h10]
      omega
    · rw [if_neg h10, digitsToNat_append,
        ih (n / 10) (Nat.div_lt_self (by omega) (by omega))]
      show n / 10 * 10 + charDigit (digitChar (n % 10)) = n
      rw [charDigit_digitChar (n % 10) (by omega)]
      omega

theorem takeWhile_all_append (p : Char → Bool) (l₁ l₂ : List Char)
    (h₁ : ∀ c ∈ l₁, p c = true) (h₂ : ∀ c, l₂.head? = some c → p c = false) :
    (l₁ ++ l₂).takeWhile p = l₁ ∧ (l₁ ++ l₂).dropWhile p = l₂ := by
  induction l₁ with
  | nil =>
    cases l₂ with
    | nil => simp
    | cons c cs => simp [List.takeWhile_cons, List.dropWhile_cons, h₂ c rfl]
  | cons c cs ih =>
    have hc := h₁ c (by simp)
    have hr := ih (fun d hd => h₁ d (by simp [hd]))
    simp [List.takeWhile_cons, List.dropWhile_cons, hc, hr.1, hr.2]

theorem parseNat_natDigits (n : Nat) (rest : List Char)
    (h : ∀ c, rest.head? = some c → c.isDigit = false) :
    parseNat (natDigits n ++ rest) = some (n, rest) := by
  have hsplit := takeWhile_all_append (fun c => c.isDigit) (natDigits n) rest
    (fun c hc => natDigitsAux_digits _ _ c hc) h
  have hne : (natDigits n).isEmpty = false := by
    have := natDigitsAux_ne_nil (n + 1) n (by omega)
    cases hnd : natDigits n with
    | nil => exact absurd hnd this
    | cons a t => rfl
  rw [parseNat]
  simp only [hsplit.1, hsplit.2, hne, Bool.false_eq_true, if_false,
    digitsToNat_natDigits]

theorem isDigit_ne_special (c : Char) (h : c.isDigit = true) :
    c ≠ '\'' ∧ c ≠ '"' ∧ c ≠ '{' ∧ c ≠ '-' :=
  ⟨fun hc => absurd h (by subst hc; decide),
   fun hc => absurd h (by subst hc; decide),
   fun hc => absurd h (by subst hc; decide),
   fun hc => absurd h (by subst hc; decide)⟩

theorem vsize_int (n : Int) : vsize (.int n) = 1 := rfl

theorem vsize_str (s : String) : vsize (.str s) = 1 := rfl

theorem vsize_dict (es : List (String × Value)) : vsize (.dict es) = esize es + 1 := rfl

theorem esize_nil : esize ([] : List (String × Value)) = 0 := rfl

theorem esize_cons (k : String) (v : Value) (es : List (String × Value)) :
    esize ((k, v) :: es) = vsize v + esize es + 1 := rfl

theorem vsize_pos (v : Value) : 1 ≤ vsize v := by
  cases v with
  | int n => rw [vsize_int]
  | str s => rw [vsize_str]
  | dict es => rw [vsize_dict]; omega

theorem esize_pos (es : List (String × Value)) (h : es ≠ []) : 1 ≤ esize es := by
  cases es with
  | nil => exact absurd rfl h
  | cons e es' => obtain ⟨k, v⟩ := e; rw [esize_cons]; omega

theorem noDigitHead_of_head (c : Char) (h : c.isDigit = false) (rest : List Char) :
    ∀ d, (c :: rest).head? = some d → d.isDigit = false := by
  intro d hd
  simp only [List.head?_cons, Option.some.injEq] at hd
  rw [← hd]
  exact h

theorem pyReprStr_shape (k : String) :
    ∃ q t, pyReprStr k = q :: t ∧ (q = '\'' ∨ q = '"') := by
  by_cases hd : (k.data.contains '\'' && !(k.data.contains '"')) = true
  · exact ⟨'"', _, by rw [pyReprStr, if_pos hd], Or.inr rfl⟩
  · exact ⟨'\'', _, by rw [pyReprStr, if_neg hd], Or.inl rfl⟩

theorem renderPairs_cons_head (p : String × Value) (ps : Payload) :
    ∃ X, renderPairs (p :: ps) = '(' :: X := by
  obtain ⟨k, v⟩ := p
  cases ps with
  | nil => exact ⟨_, rfl⟩
  | cons p₂ ps₂ => exact ⟨_, rfl⟩

theorem parseValue_squote (fuel : Nat) (r : List Char) :
    parseValue (fuel + 1) ('\'' :: r) =
      (parseQuoted '\'' r).map (fun p => (Value.str ⟨p.1⟩, p.2)) := rfl

theorem parseValue_dquote (fuel : Nat) (r : List Char) :
    parseValue (fuel + 1) ('"' :: r) =
      (parseQuoted '"' r).map (fun p => (Value.str ⟨p.1⟩, p.2)) := rfl

theorem parseValue_minus (fuel : Nat) (r : List Char) :
    parseValue (fuel + 1) ('-' :: r) =
      (parseNat r).map (fun p => (Value.int (-(p.1 : Int)), p.2)) := rfl

theorem parseValue_digit (fuel : Nat) (c : Char) (r : List Char) (h : c.isDigit = true) :
    parseValue (fuel + 1) (c :: r) =
      (parseNat (c :: r)).map (fun p => (Value.int (p.1 : Int), p.2)) := by
  obtain ⟨h₁, h₂, h₃, h₄⟩ := isDigit_ne_special c h
  unfold parseValue
  rw [if_neg h₁, if_neg h₂, if_neg h₃, if_neg h₄]

theorem parseValue_brace_quote (fuel : Nat) (q : Char) (r : List Char)
    (hq : q = '\'' ∨ q = '"') :
    parseValue (fuel + 1) ('{' :: q :: r) =
      (parseEntries fuel (q :: r)).map (fun p => (Value.dict p.1, p.2)) := by
  rcases hq with rfl | rfl <;> rfl

theorem parseTop_paren (fuel : Nat) (r : List Char) :
    parseTop fuel ('[' :: '(' :: r) = parsePairs fuel ('(' :: r) := rfl

theorem parseEntries_last (fuel : Nat) (input r₂ : List Char) (k : String)
    (v : Value) (rest : List Char)
    (hkey : parseKey input = some (k, ':' :: ' ' :: r₂))
    (hval : parseValue fuel r₂ = some (v, '}' :: rest)) :
    parseEntries (fuel + 1) input = some ([(k, v)], rest) := by
  unfold parseEntries
  rw [hkey]
  show (match parseValue fuel r₂ with
    | some (v, ',' :: ' ' :: r₄) =>
      match parseEntries fuel r₄ with
      | some (es, r₅) => some ((k, v) :: es, r₅)
      | none => none
    | some (v, '}' :: r₄) => some ([(k, v)], r₄)
    | _ => none) = some ([(k, v)], rest)
  rw [hval]
  rfl

theorem parseEntries_cons (fuel : Nat) (input r₂ : List Char) (k : String)
    (v : Value) (r₄ : List Char) (es : List (String × Value)) (rest : List Char)
    (hkey : parseKey input = some (k, ':' :: ' ' :: r₂))
    (hval : parseValue fuel r₂ = some (v, ',' :: ' ' :: r₄))
    (hrest : parseEntries fuel r₄ = some (es, rest)) :
    parseEntries (fuel + 1) input = some ((k, v) :: es, rest) := by
  unfold parseEntries
  rw [hkey]
  show (match parseValue fuel r₂ with
    | some (v, ',' :: ' ' :: r₄) =>
      match parseEntries fuel r₄ with
      | some (es, r₅) => some ((k, v) :: es, r₅)
      | none => none
    | some (v, '}' :: r₄) => some ([(k, v)], r₄)
    | _ => none) = some ((k, v) :: es, rest)
  rw [hval]
  show (match parseEntries fuel r₄ with
    | some (es, r₅) => some ((k, v) :: es, r₅)
    | none => none) = some ((k, v) :: es, rest)
  rw [hrest]

theorem parsePairs_last (fuel : Nat) (r₀ r₂ : List Char) (k : String)
    (v : Value) (rest : List Char)
    (hkey : parseKey r₀ = some (k, ',' :: ' ' :: r₂))
    (hval : parseValue fuel r₂ = some (v, ')' :: ']' :: rest)) :
    parsePairs (fuel + 1) ('(' :: r₀) = some ([(k, v)], rest) := by
  show (match parseKey r₀ with
    | some (k, ',' :: ' ' :: r₂) =>
      match parseValue fuel r₂ with
      | some (v, ')' :: r₃) =>
        match r₃ with
        | ',' :: ' ' :: r₄ =>
          match parsePairs fuel r₄ with
          | some (ps, r₅) => some ((k, v) :: ps, r₅)
          | none => none
        | ']' :: r₄ => some ([(k, v)], r₄)
        | _ => none
      | _ => none
    | _ => none) = some ([(k, v)], rest)
  rw [hkey]
  show (match parseValue fuel r₂ with
    | some (v, ')' :: r₃) =>
      match r₃ with
      | ',' :: ' ' :: r₄ =>
        match parsePairs fuel r₄ with
        | some (ps, r₅) => some ((k, v) :: ps, r₅)
        | none => none
      | ']' :: r₄ => some ([(k, v)], r₄)
      | _ => none
    | _ => none) = some ([(k, v)], rest)
  rw [hval]
  rfl

theorem parsePairs_cons (fuel : Nat) (r₀ r₂ r₄ : List Char) (k : String)
    (v : Value) (ps : Payload) (rest : List Char)
    (hkey : parseKey r₀ = some (k, ',' :: ' ' :: r₂))
    (hval : parseValue fuel r₂ = some (v, ')' :: ',' :: ' ' :: r₄))
    (hrest : parsePairs fuel r₄ = some (ps, rest)) :
    parsePairs (fuel + 1) ('(' :: r₀) = some ((k, v) :: ps, rest) := by
  show (match parseKey r₀ with
    | some (k, ',' :: ' ' :: r₂) =>
      match parseValue fuel r₂ with
      | some (v, ')' :: r₃) =>
        match r₃ with
        | ',' :: ' ' :: r₄ =>
          match parsePairs fuel r₄ with
          | some (ps, r₅) => some ((k, v) :: ps, r₅)
          | none => none
        | ']' :: r₄ => some ([(k, v)], r₄)
        | _ => none
      | _ => none
    | _ => none) = some ((k, v) :: ps, rest)
  rw [hkey]
  show (match parseValue fuel r₂ with
    | some (v, ')' :: r₃) =>
      match r₃ with
      | ',' :: ' ' :: r₄ =>
        match parsePairs fuel r₄ with
        | some (ps, r₅) => some ((k, v) :: ps, r₅)
        | none => none
      | ']' :: r₄ => some ([(k, v)], r₄)
      | _ => none
    | _ => none) = some ((k, v) :: ps, rest)
  rw [hval]
  show (match parsePairs fuel r₄ with
    | some (ps, r₅) => some ((k, v) :: ps, r₅)
    | none => none) = some ((k, v) :: ps, rest)
  rw [hrest]

/-- Joint round-trip of the decoder over the renderer, by induction on
the parser fuel. -/
theorem parse_render_roundtrip (fuel : Nat) :
    (∀ v rest, vsize v ≤ fuel → (∀ c, rest.head? = some c → c.isDigit = false) →
      parseValue fuel (renderValue v ++ rest) = some (v, rest)) ∧
    (∀ es rest, es ≠ [] → esize es ≤ fuel →
      parseEntries fuel (renderEntries es ++ '}' :: rest) = some (es, rest)) ∧
    (∀ ps rest, ps ≠ [] → esize ps ≤ fuel →
      parsePairs fuel (renderPairs ps ++ ']' :: rest) = some (ps, rest)) := by
  induction fuel with
  | zero =>
    refine ⟨fun v rest hv _ => absurd hv (by have := vsize_pos v; omega),
      fun es rest hne hs => absurd hs (by have := esize_pos es hne; omega),
      fun ps rest hne hs => absurd hs (by have := esize_pos ps hne; omega)⟩
  | succ fuel ih =>
    obtain ⟨ihv, ihe, ihp⟩ := ih
    refine ⟨?_, ?_, ?_⟩
    · -- values
      intro v rest hv hnd
      cases v with
      | int n =>
        rw [show renderValue (.int n) = pyReprInt n from rfl]
        by_cases hn : n < 0
        · rw [pyReprInt, if_pos hn, List.cons_append, parseValue_minus,
            parseNat_natDigits n.natAbs rest hnd]
          simp only [Option.map_some']
          refine congrArg some (Prod.ext ?_ rfl)
          simp only [Value.int.injEq]
          omega
        · rw [pyReprInt, if_neg hn]
          have hnn : natDigits n.natAbs ≠ [] := natDigitsAux_ne_nil _ _ (by omega)
          obtain ⟨c₀, ds, hds⟩ : ∃ c₀ ds, natDigits n.natAbs = c₀ :: ds := by
            cases hmm : natDigits n.natAbs with
            | nil => exact absurd hmm hnn
            | cons a b => exact ⟨a, b, rfl⟩
          have hc₀ : c₀.isDigit = true :=
            natDigitsAux_digits (n.natAbs + 1) n.natAbs c₀ (by
              rw [show natDigitsAux (n.natAbs + 1) n.natAbs = natDigits n.natAbs from rfl,
                hds]; simp)
          rw [hds, List.cons_append, parseValue_digit fuel c₀ (ds ++ rest) hc₀,
            ← List.cons_append, ← hds, parseNat_natDigits n.natAbs rest hnd]
          simp only [Option.map_some']
          refine congrArg some (Prod.ext ?_ rfl)
          simp only [Value.int.injEq]
          omega
      | str s =>
        rw [show renderValue (.str s) = pyReprStr s from rfl]
        by_cases hd : (s.data.contains '\'' && !(s.data.contains '"')) = true
        · rw [pyReprStr, if_pos hd]
          rw [show ('"' :: (escStr '"' s.data ++ ['"'])) ++ rest =
              '"' :: (escStr '"' s.data ++ '"' :: rest) by simp]
          rw [parseValue_dquote, parseQuoted_escStr '"' (by decide) s.data rest]
          simp [strMk_data]
        · rw [pyReprStr, if_neg hd]
          rw [show ('\'' :: (escStr '\'' s.data ++ ['\''])) ++ rest =
              '\'' :: (escStr '\'' s.data ++ '\'' :: rest) by simp]
          rw [parseValue_squote, parseQuoted_escStr '\'' (by decide) s.data rest]
          simp [strMk_data]
      | dict es =>
        rw [show renderValue (.dict es) ++ rest =
            '{' :: (renderEntries es ++ '}' :: rest) by simp [renderValue]]
        cases es with
        | nil => rfl
        | cons e es' =>
          obtain ⟨k, v⟩ := e
          obtain ⟨q, t, hq, hqor⟩ := pyReprStr_shape k
          have hhead : ∃ X, renderEntries ((k, v) :: es') = q :: X := by
            cases es' with
            | nil =>
              refine ⟨t ++ (':' :: ' ' :: renderValue v), ?_⟩
              rw [show renderEntries [(k, v)] =
                pyReprStr k ++ (':' :: ' ' :: renderValue v) from rfl, hq]
              rfl
            | cons e₂ es₂ =>
              refine ⟨t ++ (':' :: ' ' :: (renderValue v ++
                (',' :: ' ' :: renderEntries (e₂ :: es₂)))), ?_⟩
              simp only [renderEntries]
              rw [hq]
              simp
          obtain ⟨X, hX⟩ := hhead
          rw [hX, List.cons_append, parseValue_brace_quote fuel q _ hqor,
            ← List.cons_append, ← hX,
            ihe ((k, v) :: es') rest (by simp)
              (by rw [vsize_dict] at hv; omega)]
          rfl
    · -- entries
      intro es rest hne hsz
      cases es with
      | nil => exact absurd rfl hne
      | cons e es' =>
        obtain ⟨k, v⟩ := e
        rw [esize_cons] at hsz
        cases es' with
        | nil =>
          rw [show renderEntries [(k, v)] ++ '}' :: rest =
              pyReprStr k ++ (':' :: ' ' :: (renderValue v ++ '}' :: rest)) by
            rw [show renderEntries [(k, v)] =
              pyReprStr k ++ (':' :: ' ' :: renderValue v) from rfl]
            simp]
          exact parseEntries_last fuel _ _ k v rest
            (parseKey_pyReprStr k (':' :: ' ' :: (renderValue v ++ '}' :: rest)))
            (ihv v ('}' :: rest) (by omega) (noDigitHead_of_head '}' (by decide) rest))
        | cons e₂ es₂ =>
          rw [show renderEntries ((k, v) :: e₂ :: es₂) ++ '}' :: rest =
              pyReprStr k ++ (':' :: ' ' :: (renderValue v ++ (',' :: ' ' ::
                (renderEntries (e₂ :: es₂) ++ '}' :: rest)))) by
            simp only [renderEntries]
            simp]
          exact parseEntries_cons fuel _ _ k v _ (e₂ :: es₂) rest
            (parseKey_pyReprStr k _)
            (ihv v (',' :: ' ' :: (renderEntries (e₂ :: es₂) ++ '}' :: rest))
              (by omega) (noDigitHead_of_head ',' (by decide) _))
            (ihe (e₂ :: es₂) rest (by simp)
              (by have := esize_pos (e₂ :: es₂) (by simp); omega))
    · -- pairs
      intro ps rest hne hsz
      cases ps with
      | nil => exact absurd rfl hne
      | cons p ps'
      =>
        obtain ⟨k, v⟩ := p
        rw [esize_cons] at hsz
        cases ps' with
        | nil =>
          rw [show renderPairs [(k, v)] ++ ']' :: rest =
              '(' :: (pyReprStr k ++ (',' :: ' ' ::
                (renderValue v ++ ')' :: ']' :: rest))) by
            rw [show renderPairs [(k, v)] =
              '(' :: (pyReprStr k ++ (',' :: ' ' :: (renderValue v ++ [')']))) from rfl]
            simp]
          exact parsePairs_last fuel _ _ k v rest
            (parseKey_pyReprStr k (',' :: ' ' :: (renderValue v ++ ')' :: ']' :: rest)))
            (ihv v (')' :: ']' :: rest) (by omega)
              (noDigitHead_of_head ')' (by decide) _))
        | cons p₂ ps₂ =>
          rw [show renderPairs ((k, v) :: p₂ :: ps₂) ++ ']' :: rest =
              '(' :: (pyReprStr k ++ (',' :: ' ' :: (renderValue v ++ ')' :: ',' :: ' ' ::
                (renderPairs (p₂ :: ps₂) ++ ']' :: rest)))) by
            rw [show renderPairs ((k, v) :: p₂ :: ps₂) =
              '(' :: (pyReprStr k ++ (',' :: ' ' :: (renderValue v ++ [')']))) ++
                ',' :: ' ' :: renderPairs (p₂ :: ps₂) from rfl]
            simp]
          exact parsePairs_cons fuel _ _ _ k v (p₂ :: ps₂) rest
            (parseKey_pyReprStr k _)
            (ihv v (')' :: ',' :: ' ' :: (renderPairs (p₂ :: ps₂) ++ ']' :: rest))
              (by omega) (noDigitHead_of_head ')' (by decide) _))
            (ihp (p₂ :: ps₂) rest (by simp)
              (by have := esize_pos (p₂ :: ps₂) (by simp); omega))

/-- Round-trip of the decoder over a full canonical encoding. -/
theorem parseTop_renderTop (fuel : Nat) (l : Payload) (rest : List Char)
    (h : esize l ≤ fuel) :
    parseTop fuel (renderTop l ++ rest) = some (l, rest) := by
  cases l with
  | nil => rfl
  | cons p ps =>
    obtain ⟨X, hX⟩ := renderPairs_cons_head p ps
    rw [show renderTop (p :: ps) ++ rest =
        '[' :: (renderPairs (p :: ps) ++ ']' :: rest) by simp [renderTop]]
    rw [hX, List.cons_append, parseTop_paren, ← List.cons_append, ← hX]
    exact (parse_render_roundtrip fuel).2.2 (p :: ps) rest (by simp) h

/-- `renderTop` (Python `str` of a sorted item list) is injective. -/
theorem renderTop_inj (l₁ l₂ : Payload) (h : renderTop l₁ = renderTop l₂) :
    l₁ = l₂ := by
  have h₁ := parseTop_renderTop (esize l₁ + esize l₂) l₁ [] (by omega)
  have h₂ := parseTop_renderTop (esize l₁ + esize l₂) l₂ [] (by omega)
  rw [List.append_nil] at h₁ h₂
  rw [h, h₂] at h₁
  exact (Prod.mk.injEq _ _ _ _).mp (Option.some.inj h₁) |>.1.symm

/-- Equal canonical encodings force equal contents (up to the top-level
insertion order): the encoding is sensitive to every key/value change. -/
theorem canonicalEncode_inj (l₁ l₂ : Payload)
    (h : canonicalEncode l₁ = canonicalEncode l₂) : l₁.Perm l₂ := by
  have hs : sortPairs l₁ = sortPairs l₂ :=
    renderTop_inj (sortPairs l₁) (sortPairs l₂) h
  exact ((sortPairs_perm l₁).symm.trans (hs ▸ sortPairs_perm l₂ : (sortPairs l₁).Perm l₂))

/-- C2 amended: the canonical encoding is independent of the order in
which the TOP-level keys were inserted (for duplicate-free keys, with
nested values constructed identically), and it is sensitive to every
key or value change: equal bytes force the contents to agree up to
top-level insertion order.  Insertion order of NESTED dictionaries,
however, does change the bytes (see the counterexample). -/
theorem C2_canonical_encoding_contract (l₁ l₂ : Payload) :
    (l₁.Perm l₂ → (l₁.map Prod.fst).Nodup →
      canonicalEncode l₁ = canonicalEncode l₂) ∧
    (canonicalEncode l₁ = canonicalEncode l₂ → l₁.Perm l₂) :=
  ⟨fun h hnd => congrArg renderTop (sortPairs_eq_of_perm l₁ l₂ h hnd),
   canonicalEncode_inj l₁ l₂⟩

/-- Witness for the amended C2: two insertion orders of the same
two-key payload encode identically, hence are permutations. -/
theorem C2_canonical_encoding_contract_witness :
    canonicalEncode [("b", Value.int 2), ("a", Value.int 1)] =
      canonicalEncode [("a", Value.int 1), ("b", Value.int 2)] ∧
    ([("b", Value.int 2), ("a", Value.int 1)] : Payload).Perm
      [("a", Value.int 1), ("b", Value.int 2)] := by
  have h := C2_canonical_encoding_contract
    [("b", Value.int 2), ("a", Value.int 1)] [("a", Value.int 1), ("b", Value.int 2)]
  have henc := h.1 (List.Perm.swap ("a", Value.int 1) ("b", Value.int 2) []) (by decide)
  exact ⟨henc, h.2 henc⟩

/-- C2 is violated as stated: the code sorts only the top level of the
payload (`sorted(data.items())`); a nested dictionary is rendered in
its insertion order by Python `str`.  The two payloads below have the
same key/value content — the inner item lists are permutations of one
another — yet their canonical encodings differ. -/
theorem C2_counterexample :
    ([("x", Value.int 1), ("y", Value.int 2)] : Payload).Perm
      [("y", Value.int 2), ("x", Value.int 1)] ∧
    canonicalEncode [("a", Value.dict [("x", Value.int 1), ("y", Value.int 2)])] ≠
      canonicalEncode [("a", Value.dict [("y", Value.int 2), ("x", Value.int 1)])] :=
  ⟨List.Perm.swap ("y", Value.int 2) ("x", Value.int 1) [], by decide⟩

end IoTChain
